import Mathlib

/-!
Verification of the client-side upload controller in
`src/web/static/js/app.js` (class `PitchAnalyzerApp` and the free
function `resetApp`).

The JavaScript is embedded shallowly:
* the DOM regions the controller touches become the fields of `AppState`;
* each controller method becomes a pure state transformer;
* JS numbers are modelled as exact rationals (`ℚ`), with `Number.prototype.toFixed`
  modelled by `toFixed` following the ECMAScript rounding rule ("pick the
  larger n" on ties, sign handled first);
* JS exceptions inside `displayResults`' try block are modelled with
  `Except AppState AppState`, the error carrying the partially updated state
  seen by the catch handler;
* the network round-trip in `handleFileUpload` is an oracle argument
  (`FetchOutcome`): the response the `await fetch`/`await response.json()`
  pair would produce, or a transport failure.
-/

/-- JavaScript `String.prototype.split` with a single-character separator,
on the character list of the string: `"" ↦ [""]`, `"a.b" ↦ ["a","b"]`,
`"a." ↦ ["a",""]`. -/
def splitOnChar (sep : Char) : List Char → List (List Char)
  | [] => [[]]
  | c :: cs =>
    let rest := splitOnChar sep cs
    if c = sep then
      [] :: rest
    else
      match rest with
      | [] => [[c]]
      | r :: rs => (c :: r) :: rs

/-- `app.js` line 56: `file.name.split('.').pop().toLowerCase()`.
`pop` on the never-empty result of `split` is the last element. -/
def fileExtension (name : String) : String :=
  String.mk (((splitOnChar '.' name.toList).getLastD []).map Char.toLower)

/-- `app.js` line 57: `const allowedExtensions = ['mp3', 'wav', 'ogg', 'm4a']`. -/
def allowedExtensions : List String := ["mp3", "wav", "ogg", "m4a"]

/-- `app.js` line 60: unsupported-format error message. -/
def formatErrorMsg : String :=
  "対応していないファイル形式です。MP3, WAV, OGG, M4A形式のファイルを選択してください。"

/-- `app.js` line 66: size-too-large error message. -/
def sizeErrorMsg : String :=
  "ファイルサイズが大きすぎます。16MB以下のファイルを選択してください。"

/-- `app.js` line 91: fallback when the server reports failure without a message. -/
def unknownErrorMsg : String := "不明なエラーが発生しました"

/-- `app.js` line 96: generic network-error message of the outer catch. -/
def networkErrorMsg : String :=
  "ネットワークエラーが発生しました。インターネット接続を確認してください。"

/-- `app.js` line 142: generic message of `displayResults`' catch handler. -/
def displayErrorMsg : String := "結果の表示中にエラーが発生しました"

/-- The `File` object handed to `handleFileUpload`: its `name` and `size`
attributes are all the controller reads besides the opaque bytes. -/
structure UploadFile where
  name : String
  size : Nat
  deriving DecidableEq, Repr

/-- The parsed JSON body `result` of the server response.  Fields a concrete
response may lack are `Option`; reading a missing numeric field's method
(`toFixed`) throws in JS, which the embedding surfaces at the use sites.
`stats` is an association list standing for the JSON object, so that
`Object.keys(result.stats).length` is its length and attribute access is
`List.lookup`. -/
structure ServerResponse where
  success : Bool
  error : Option String
  word : Option String
  phonetic : Option String
  stats : Option (List (String × ℚ))
  duration : Option ℚ
  plot : Option String
  deriving DecidableEq

/-- The DOM surface the controller reads and writes, plus bookkeeping for
network requests and object URLs.  `audioPlayers` holds the handle ids of the
`<audio>` elements currently mounted under `#audioPlayer`; `createdHandles`
and `revokedHandles` record every `URL.createObjectURL` / `URL.revokeObjectURL`
call in order; `nextHandle` makes created handles fresh. -/
structure AppState where
  loadingVisible : Bool
  resultsVisible : Bool
  errorVisible : Bool
  errorMessage : String
  wordText : String
  phoneticText : String
  meanPitchText : String
  pitchRangeText : String
  durationText : String
  plotSrc : String
  plotVisible : Bool
  fileInputValue : String
  audioPlayers : List Nat
  nextHandle : Nat
  createdHandles : List Nat
  revokedHandles : List Nat
  requests : Nat
  deriving DecidableEq

/-- The page as loaded: nothing visible, nothing recorded. -/
def initState : AppState where
  loadingVisible := false
  resultsVisible := false
  errorVisible := false
  errorMessage := ""
  wordText := ""
  phoneticText := ""
  meanPitchText := ""
  pitchRangeText := ""
  durationText := ""
  plotSrc := ""
  plotVisible := false
  fileInputValue := ""
  audioPlayers := []
  nextHandle := 0
  createdHandles := []
  revokedHandles := []
  requests := 0

/-- `hideAllSections` (`app.js` lines 182-194): sets `display = 'none'` on the
loading, results and error sections. -/
def hideAllSections (s : AppState) : AppState :=
  { s with loadingVisible := false, resultsVisible := false, errorVisible := false }

/-- `showLoading` (`app.js` lines 101-106). -/
def showLoading (s : AppState) : AppState :=
  { hideAllSections s with loadingVisible := true }

/-- `showError` (`app.js` lines 171-180). -/
def showError (message : String) (s : AppState) : AppState :=
  let s := hideAllSections s
  let s := { s with errorMessage := message }
  { s with errorVisible := true }

/-- `addAudioPlayer` (`app.js` lines 146-169): clears `#audioPlayer`'s
children (`innerHTML = ''`), creates a fresh object URL for the file, and
mounts one `<audio>` element using it.  No `revokeObjectURL` happens here;
revocation is only registered on the element's `ended` event. -/
def addAudioPlayer (_file : UploadFile) (s : AppState) : AppState :=
  let h := s.nextHandle
  { s with
    audioPlayers := [h]
    nextHandle := h + 1
    createdHandles := s.createdHandles ++ [h] }

/-- The `ended` listener installed by `addAudioPlayer` (`app.js` lines
166-168): fires only for an `<audio>` element still mounted (a detached
element cannot play), and calls `URL.revokeObjectURL` on its captured URL. -/
def audioEnded (h : Nat) (s : AppState) : AppState :=
  if s.audioPlayers.contains h then
    { s with revokedHandles := s.revokedHandles ++ [h] }
  else
    s

/-- JS string interpolation / `textContent` assignment of a possibly-missing
string field: `undefined` stringifies to `"undefined"`. -/
def jsText (x : Option String) : String := x.getD "undefined"

/-- JS `result.error || fallback`: a missing or empty (falsy) string picks the
fallback. -/
def jsOr (x : Option String) (fallback : String) : String :=
  match x with
  | none => fallback
  | some v => if v = "" then fallback else v

/-- JS truthiness test `result.stats && Object.keys(result.stats).length > 0`
(`app.js` line 117). -/
def statsNonempty (stats : Option (List (String × ℚ))) : Bool :=
  match stats with
  | none => false
  | some l => decide (0 < l.length)

/-- Decimal rendering of `n` with `f` digits after the point (ECMAScript
`toFixed` step: pad `n`'s digits to at least `f + 1`, split off the last `f`
as the fraction). -/
def renderFixed (f : Nat) (n : Nat) : String :=
  let digits := (Nat.repr n).data
  let digits :=
    if digits.length ≤ f then
      List.replicate (f + 1 - digits.length) '0' ++ digits
    else digits
  if f = 0 then String.mk digits
  else String.mk (digits.take (digits.length - f) ++ '.' :: digits.drop (digits.length - f))

/-- `toFixed f x` for the nonnegative rational `num / den` (`0 ≤ num`,
`0 < den`): the integer `n` with `n / 10^f` closest to `num / den`, ties
resolved to the larger `n` (ECMAScript `Number.prototype.toFixed`), computed
as `⌊num·10^f/den + 1/2⌋ = ⌊(2·num·10^f + den) / (2·den)⌋`. -/
def toFixedNonneg (f : Nat) (num : Int) (den : Nat) : String :=
  renderFixed f (Int.fdiv (2 * num * Int.ofNat (10 ^ f) + Int.ofNat den)
    (Int.ofNat (2 * den))).toNat

/-- JS `x.toFixed(f)` on an exact rational: negative input renders the sign
first and formats the absolute value (ECMAScript 'if x < 0, s = "-", x = -x'). -/
def toFixed (f : Nat) (x : ℚ) : String :=
  if x.num < 0 then "-" ++ toFixedNonneg f (-x.num) x.den
  else toFixedNonneg f x.num x.den

/-- `app.js` lines 110-114: hide all sections, then set the transcription and
phonetic text regions (`textContent` assignment cannot throw). -/
def textStep (result : ServerResponse) (s : AppState) : AppState :=
  let s := hideAllSections s
  let s := { s with wordText := jsText result.word }
  { s with phoneticText := jsText result.phonetic }

/-- `app.js` lines 117-124: the statistics block.  `Except.error s` is a
thrown JS `TypeError` (reading `.toFixed` of a missing field), with `s` the
DOM state already mutated when the throw happened. -/
def statsStep (result : ServerResponse) (s : AppState) : Except AppState AppState :=
  if statsNonempty result.stats then
    match (result.stats.getD []).lookup "mean_pitch" with
    | none => .error s
    | some m =>
      let s1 := { s with meanPitchText := toFixed 1 m ++ " Hz" }
      match (result.stats.getD []).lookup "min_pitch" with
      | none => .error s1
      | some lo =>
        match (result.stats.getD []).lookup "max_pitch" with
        | none => .error s1
        | some hi =>
          .ok { s1 with pitchRangeText := toFixed 1 lo ++ " - " ++ toFixed 1 hi ++ " Hz" }
  else
    .ok { s with meanPitchText := "N/A", pitchRangeText := "N/A" }

/-- `app.js` lines 126-139: duration, plot image, audio player, and finally
showing the results section.  Throws (`.error`) if `duration` is missing. -/
def afterStatsStep (result : ServerResponse) (file : UploadFile) (s : AppState) :
    Except AppState AppState :=
  match result.duration with
  | none => .error s
  | some d =>
    let s1 := { s with durationText := toFixed 2 d ++ " 秒" }
    let s2 := { s1 with
      plotSrc := "data:image/png;base64," ++ jsText result.plot
      plotVisible := true }
    let s3 := addAudioPlayer file s2
    .ok { s3 with resultsVisible := true }

/-- The body of `displayResults`' try block (`app.js` lines 109-139). -/
def displayResultsTry (result : ServerResponse) (file : UploadFile)
    (s0 : AppState) : Except AppState AppState :=
  match statsStep result (textStep result s0) with
  | .error s => .error s
  | .ok s => afterStatsStep result file s

/-- `displayResults` (`app.js` lines 108-144): runs the try block; a thrown
exception is caught and turned into `showError` with the generic display-error
message. -/
def displayResults (result : ServerResponse) (file : UploadFile)
    (s : AppState) : AppState :=
  match displayResultsTry result file s with
  | .ok s' => s'
  | .error s' => showError displayErrorMsg s'

/-- One network round-trip as seen by `handleFileUpload`: either the parsed
JSON response, or a throw from `fetch`/`response.json()` (connectivity loss,
invalid JSON) landing in the outer catch. -/
inductive FetchOutcome where
  | networkFailure : FetchOutcome
  | response : ServerResponse → FetchOutcome
  deriving DecidableEq

/-- `handleFileUpload` (`app.js` lines 54-99): extension check, size check,
then `showLoading`, one `POST /upload` (counted in `requests`), and dispatch
on the outcome. -/
def handleFileUpload (file : UploadFile) (fetch : FetchOutcome)
    (s : AppState) : AppState :=
  if ¬ allowedExtensions.contains (fileExtension file.name) then
    showError formatErrorMsg s
  else if file.size > 16 * 1024 * 1024 then
    showError sizeErrorMsg s
  else
    let s := showLoading s
    let s := { s with requests := s.requests + 1 }
    match fetch with
    | .networkFailure => showError networkErrorMsg s
    | .response result =>
      if result.success then
        displayResults result file s
      else
        showError (jsOr result.error unknownErrorMsg) s

/-- `resetApp` (`app.js` lines 198-216): clears the file input's value, hides
the three sections, and clears `#audioPlayer`'s children.  No URL is
revoked. -/
def resetApp (s : AppState) : AppState :=
  let s := { s with fileInputValue := "" }
  let s := hideAllSections s
  { s with audioPlayers := [] }

/-- The user-visible events that drive the controller after page load: a file
selection/drop (with its network outcome), the reset button, and an `ended`
signal from a mounted audio element. -/
inductive Event where
  | upload : UploadFile → FetchOutcome → Event
  | reset : Event
  | ended : Nat → Event
  deriving DecidableEq

/-- One step of the controller. -/
def step (e : Event) (s : AppState) : AppState :=
  match e with
  | .upload file fetch => handleFileUpload file fetch s
  | .reset => resetApp s
  | .ended h => audioEnded h s

/-- A session: the given events applied in order. -/
def runTrace (events : List Event) (s : AppState) : AppState :=
  events.foldl (fun s e => step e s) s

/-- Number of the three sections currently shown. -/
def visibleCount (s : AppState) : Nat :=
  (cond s.loadingVisible 1 0) + (cond s.resultsVisible 1 0) + (cond s.errorVisible 1 0)

/-- The substring of `name` after the final `'.'` — the extension the spec
describes; for a dot-free name this is the whole name (there is no final
`'.'`). -/
def afterLastDot : List Char → List Char
  | [] => []
  | c :: cs =>
    if cs.contains '.' then afterLastDot cs
    else if c = '.' then cs
    else c :: cs

/-- Modelled from the spec: acceptance as §4.1 words it — the substring after
the final `'.'`, lower-cased, must be on the allow-list, and a name with no
`'.'` at all is rejected. -/
def specExtensionAccepts (name : String) : Bool :=
  name.toList.contains '.' &&
    allowedExtensions.contains (String.mk ((afterLastDot name.toList).map Char.toLower))

/-- A handle that is already allocated, no longer mounted, and never revoked.
Only the `ended` listener of a mounted element revokes, so such a handle can
never be revoked again: it is leaked for the rest of the session. -/
def leakedHandle (h : Nat) (s : AppState) : Prop :=
  s.audioPlayers.contains h = false ∧ h < s.nextHandle ∧
    s.revokedHandles.contains h = false

theorem splitOnChar_ne_nil (sep : Char) (l : List Char) : splitOnChar sep l ≠ [] := by
  cases l with
  | nil => simp [splitOnChar]
  | cons c cs =>
    simp only [splitOnChar]
    split
    · simp
    · split <;> simp

theorem splitOnChar_of_not_contains (sep : Char) (l : List Char)
    (h : l.contains sep = false) : splitOnChar sep l = [l] := by
  induction l with
  | nil => rfl
  | cons c cs ih =>
    simp only [List.contains_cons, Bool.or_eq_false_iff, beq_eq_false_iff_ne] at h
    simp only [splitOnChar, if_neg (Ne.symm h.1), ih h.2]

theorem splitOnChar_two_le (sep : Char) (l : List Char) (h : l.contains sep = true) :
    2 ≤ (splitOnChar sep l).length := by
  induction l with
  | nil => simp at h
  | cons c cs ih =>
    simp only [List.contains_cons, Bool.or_eq_true, beq_iff_eq] at h
    simp only [splitOnChar]
    by_cases hc : c = sep
    · rw [if_pos hc]
      cases hsp : splitOnChar sep cs with
      | nil => exact absurd hsp (splitOnChar_ne_nil sep cs)
      | cons r rs => simp
    · rw [if_neg hc]
      have hcs : cs.contains sep = true := h.resolve_left (fun he => hc he.symm)
      have h2 := ih hcs
      cases hsp : splitOnChar sep cs with
      | nil => exact absurd hsp (splitOnChar_ne_nil sep cs)
      | cons r rs =>
        rw [hsp] at h2
        simpa using h2

theorem afterLastDot_of_not_contains (l : List Char) (h : l.contains '.' = false) :
    afterLastDot l = l := by
  cases l with
  | nil => rfl
  | cons c cs =>
    rw [List.contains_cons, Bool.or_eq_false_iff, beq_eq_false_iff_ne] at h
    rw [afterLastDot, if_neg (by rw [h.2]; exact Bool.false_ne_true), if_neg (Ne.symm h.1)]

theorem splitOnChar_dot_getLastD (l : List Char) :
    (splitOnChar '.' l).getLastD [] = afterLastDot l := by
  induction l with
  | nil => rfl
  | cons c cs ih =>
    by_cases hc : c = '.'
    · subst hc
      by_cases hcs : cs.contains '.' = true
      · have hmem : '.' ∈ cs := by simpa using hcs
        rw [show splitOnChar '.' ('.' :: cs) = [] :: splitOnChar '.' cs from by
          simp [splitOnChar]]
        rw [List.getLastD_cons, ih]
        simp [afterLastDot, hmem]
      · have hcs' : cs.contains '.' = false := by simpa using hcs
        have hmem : '.' ∉ cs := by simpa using hcs'
        simp [splitOnChar, afterLastDot, hmem, splitOnChar_of_not_contains '.' cs hcs',
          List.getLastD_cons, List.getLastD_nil]
    · by_cases hcs : cs.contains '.' = true
      · have h2 := splitOnChar_two_le '.' cs hcs
        simp only [splitOnChar, if_neg hc]
        cases hsp : splitOnChar '.' cs with
        | nil => exact absurd hsp (splitOnChar_ne_nil '.' cs)
        | cons r rs =>
          rw [hsp] at h2
          cases rs with
          | nil => simp at h2
          | cons r2 rs' =>
            rw [hsp, List.getLastD_cons, List.getLastD_cons] at ih
            rw [List.getLastD_cons, List.getLastD_cons]
            rw [ih]
            simp only [afterLastDot, if_pos hcs]
      · have hcs' : cs.contains '.' = false := by simpa using hcs
        have hnc : (c :: cs).contains '.' = false := by
          rw [List.contains_cons, Bool.or_eq_false_iff, beq_eq_false_iff_ne]
          exact ⟨Ne.symm hc, hcs'⟩
        rw [splitOnChar_of_not_contains '.' (c :: cs) hnc,
          afterLastDot_of_not_contains (c :: cs) hnc]
        rfl

/-- C1: refuted as stated.  The code derives the extension with
`split('.').pop()`, so a name with no `'.'` at all becomes its own extension:
the dot-free name `"mp3"` is accepted by the allow-list check even though the
claim says such a name is always rejected (`specExtensionAccepts` is the
claim's own acceptance rule, which rejects it). -/
theorem C1_counterexample :
    allowedExtensions.contains (fileExtension "mp3") = true ∧
    ("mp3".toList.contains '.') = false ∧
    specExtensionAccepts "mp3" = false := by decide

/-- C1 (amended): the extension check accepts exactly when the last
`'.'`-separated segment of the name — the substring after the final `'.'`
when the name contains one, and the whole name otherwise — lower-cases to one
of mp3, wav, ogg, m4a; on names that do contain a `'.'` this agrees with the
claim's substring-after-final-dot acceptance rule. -/
theorem C1_extension_check (name : String) :
    allowedExtensions.contains (fileExtension name) =
      allowedExtensions.contains
        (String.mk ((afterLastDot name.toList).map Char.toLower)) ∧
    (name.toList.contains '.' = true →
      allowedExtensions.contains (fileExtension name) = specExtensionAccepts name) := by
  constructor
  · unfold fileExtension
    rw [splitOnChar_dot_getLastD]
  · intro h
    unfold specExtensionAccepts fileExtension
    rw [h, Bool.true_and, splitOnChar_dot_getLastD]

theorem C1_extension_check_witness :
    ("clip.WAV".toList.contains '.' = true) ∧
    allowedExtensions.contains (fileExtension "clip.WAV") = specExtensionAccepts "clip.WAV" ∧
    allowedExtensions.contains (fileExtension "clip.WAV") = true ∧
    allowedExtensions.contains (fileExtension "clip.wav") = true :=
  ⟨by decide, (C1_extension_check "clip.WAV").2 (by decide), by decide, by decide⟩

theorem statsStep_frame (r : ServerResponse) (s s' : AppState)
    (h : statsStep r s = .ok s' ∨ statsStep r s = .error s') :
    s'.loadingVisible = s.loadingVisible ∧ s'.resultsVisible = s.resultsVisible ∧
    s'.errorVisible = s.errorVisible ∧ s'.errorMessage = s.errorMessage ∧
    s'.audioPlayers = s.audioPlayers ∧ s'.nextHandle = s.nextHandle ∧
    s'.createdHandles = s.createdHandles ∧ s'.revokedHandles = s.revokedHandles ∧
    s'.requests = s.requests := by
  unfold statsStep at h
  by_cases hn : statsNonempty r.stats = true
  · rw [if_pos hn] at h
    cases h1 : (r.stats.getD []).lookup "mean_pitch" with
    | none =>
      rw [h1] at h
      rcases h with h | h
      · simp at h
      · injection h with h
        subst h
        exact ⟨rfl, rfl, rfl, rfl, rfl, rfl, rfl, rfl, rfl⟩
    | some m =>
      rw [h1] at h
      cases h2 : (r.stats.getD []).lookup "min_pitch" with
      | none =>
        rw [h2] at h
        rcases h with h | h
        · simp at h
        · injection h with h
          subst h
          exact ⟨rfl, rfl, rfl, rfl, rfl, rfl, rfl, rfl, rfl⟩
      | some lo =>
        rw [h2] at h
        cases h3 : (r.stats.getD []).lookup "max_pitch" with
        | none =>
          rw [h3] at h
          rcases h with h | h
          · simp at h
          · injection h with h
            subst h
            exact ⟨rfl, rfl, rfl, rfl, rfl, rfl, rfl, rfl, rfl⟩
        | some hi =>
          rw [h3] at h
          rcases h with h | h
          · injection h with h
            subst h
            exact ⟨rfl, rfl, rfl, rfl, rfl, rfl, rfl, rfl, rfl⟩
          · simp at h
  · rw [if_neg hn] at h
    rcases h with h | h
    · injection h with h
      subst h
      exact ⟨rfl, rfl, rfl, rfl, rfl, rfl, rfl, rfl, rfl⟩
    · simp at h

theorem afterStatsStep_ok (r : ServerResponse) (f : UploadFile) (s s' : AppState)
    (h : afterStatsStep r f s = .ok s') :
    s'.loadingVisible = s.loadingVisible ∧ s'.resultsVisible = true ∧
    s'.errorVisible = s.errorVisible ∧ s'.errorMessage = s.errorMessage ∧
    s'.audioPlayers = [s.nextHandle] ∧ s'.nextHandle = s.nextHandle + 1 ∧
    s'.createdHandles = s.createdHandles ++ [s.nextHandle] ∧
    s'.revokedHandles = s.revokedHandles ∧ s'.requests = s.requests := by
  unfold afterStatsStep at h
  cases hd : r.duration with
  | none =>
    rw [hd] at h
    simp at h
  | some d =>
    rw [hd] at h
    injection h with h
    subst h
    exact ⟨rfl, rfl, rfl, rfl, rfl, rfl, rfl, rfl, rfl⟩

theorem afterStatsStep_error (r : ServerResponse) (f : UploadFile) (s s' : AppState)
    (h : afterStatsStep r f s = .error s') : s' = s ∧ r.duration = none := by
  unfold afterStatsStep at h
  cases hd : r.duration with
  | none =>
    rw [hd] at h
    injection h with h
    exact ⟨h.symm, rfl⟩
  | some d =>
    rw [hd] at h
    simp at h

theorem displayResultsTry_ok (r : ServerResponse) (f : UploadFile) (s0 s' : AppState)
    (h : displayResultsTry r f s0 = .ok s') :
    s'.loadingVisible = false ∧ s'.resultsVisible = true ∧ s'.errorVisible = false ∧
    s'.audioPlayers = [s0.nextHandle] ∧ s'.nextHandle = s0.nextHandle + 1 ∧
    s'.createdHandles = s0.createdHandles ++ [s0.nextHandle] ∧
    s'.revokedHandles = s0.revokedHandles ∧ s'.requests = s0.requests := by
  unfold displayResultsTry at h
  cases hS : statsStep r (textStep r s0) with
  | error s1 =>
    rw [hS] at h
    simp at h
  | ok s1 =>
    rw [hS] at h
    obtain ⟨f1, f2, f3, _, f5, f6, f7, f8, f9⟩ :=
      statsStep_frame r (textStep r s0) s1 (Or.inl hS)
    obtain ⟨g1, g2, g3, _, g5, g6, g7, g8, g9⟩ := afterStatsStep_ok r f s1 s' h
    refine ⟨?_, g2, ?_, ?_, ?_, ?_, ?_, ?_⟩
    · rw [g1, f1]; rfl
    · rw [g3, f3]; rfl
    · rw [g5, f6]; rfl
    · rw [g6, f6]; rfl
    · rw [g7, f6, f7]; rfl
    · rw [g8, f8]; rfl
    · rw [g9, f9]; rfl

theorem displayResultsTry_error (r : ServerResponse) (f : UploadFile) (s0 s' : AppState)
    (h : displayResultsTry r f s0 = .error s') :
    s'.audioPlayers = s0.audioPlayers ∧ s'.nextHandle = s0.nextHandle ∧
    s'.createdHandles = s0.createdHandles ∧ s'.revokedHandles = s0.revokedHandles ∧
    s'.requests = s0.requests := by
  unfold displayResultsTry at h
  cases hS : statsStep r (textStep r s0) with
  | error s1 =>
    rw [hS] at h
    injection h with h
    subst h
    obtain ⟨_, _, _, _, f5, f6, f7, f8, f9⟩ :=
      statsStep_frame r (textStep r s0) s1 (Or.inr hS)
    exact ⟨f5, f6, f7, f8, f9⟩
  | ok s1 =>
    rw [hS] at h
    obtain ⟨rfl, _⟩ := afterStatsStep_error r f s1 s' h
    obtain ⟨_, _, _, _, f5, f6, f7, f8, f9⟩ :=
      statsStep_frame r (textStep r s0) s' (Or.inl hS)
    exact ⟨f5, f6, f7, f8, f9⟩

theorem displayResults_frame (r : ServerResponse) (f : UploadFile) (s : AppState) :
    (displayResults r f s).revokedHandles = s.revokedHandles ∧
    (displayResults r f s).requests = s.requests ∧
    (displayResults r f s).loadingVisible = false ∧
    ((displayResults r f s).audioPlayers = s.audioPlayers ∨
      (displayResults r f s).audioPlayers = [s.nextHandle]) ∧
    s.nextHandle ≤ (displayResults r f s).nextHandle ∧
    ((displayResults r f s).resultsVisible = true ∧
        (displayResults r f s).errorVisible = false ∨
      (displayResults r f s).resultsVisible = false ∧
        (displayResults r f s).errorVisible = true ∧
        (displayResults r f s).errorMessage = displayErrorMsg) := by
  unfold displayResults
  cases hT : displayResultsTry r f s with
  | ok s' =>
    obtain ⟨h1, h2, h3, h4, h5, h6, h7, h8⟩ := displayResultsTry_ok r f s s' hT
    exact ⟨h7, h8, h1, Or.inr h4, h5 ▸ Nat.le_succ _, Or.inl ⟨h2, h3⟩⟩
  | error s' =>
    obtain ⟨h1, h2, h3, h4, h5⟩ := displayResultsTry_error r f s s' hT
    refine ⟨?_, ?_, rfl, Or.inl ?_, ?_, Or.inr ⟨rfl, rfl, rfl⟩⟩
    · show s'.revokedHandles = s.revokedHandles
      exact h4
    · show s'.requests = s.requests
      exact h5
    · show s'.audioPlayers = s.audioPlayers
      exact h1
    · show s.nextHandle ≤ s'.nextHandle
      exact h2 ▸ Nat.le_refl _

theorem handleFileUpload_extension_fail (file : UploadFile) (fetch : FetchOutcome)
    (s : AppState) (hext : allowedExtensions.contains (fileExtension file.name) = false) :
    handleFileUpload file fetch s = showError formatErrorMsg s := by
  unfold handleFileUpload
  rw [if_pos (by rw [hext]; simp)]

theorem handleFileUpload_size_fail (file : UploadFile) (fetch : FetchOutcome)
    (s : AppState) (hext : allowedExtensions.contains (fileExtension file.name) = true)
    (hsize : file.size > 16 * 1024 * 1024) :
    handleFileUpload file fetch s = showError sizeErrorMsg s := by
  unfold handleFileUpload
  rw [if_neg (by rw [hext]; simp), if_pos hsize]

theorem handleFileUpload_valid (file : UploadFile) (fetch : FetchOutcome) (s : AppState)
    (hext : allowedExtensions.contains (fileExtension file.name) = true)
    (hsize : ¬ file.size > 16 * 1024 * 1024) :
    handleFileUpload file fetch s =
      match fetch with
      | .networkFailure =>
          showError networkErrorMsg
            { showLoading s with requests := (showLoading s).requests + 1 }
      | .response result =>
          if result.success then
            displayResults result file
              { showLoading s with requests := (showLoading s).requests + 1 }
          else
            showError (jsOr result.error unknownErrorMsg)
              { showLoading s with requests := (showLoading s).requests + 1 } := by
  unfold handleFileUpload
  rw [if_neg (by rw [hext]; simp), if_neg hsize]

theorem handleFileUpload_frame (file : UploadFile) (fetch : FetchOutcome) (s : AppState) :
    (handleFileUpload file fetch s).revokedHandles = s.revokedHandles ∧
    ((handleFileUpload file fetch s).audioPlayers = s.audioPlayers ∨
      (handleFileUpload file fetch s).audioPlayers = [s.nextHandle]) ∧
    s.nextHandle ≤ (handleFileUpload file fetch s).nextHandle := by
  by_cases hext : allowedExtensions.contains (fileExtension file.name) = true
  · by_cases hsize : file.size > 16 * 1024 * 1024
    · rw [handleFileUpload_size_fail file fetch s hext hsize]
      exact ⟨rfl, Or.inl rfl, Nat.le_refl _⟩
    · rw [handleFileUpload_valid file fetch s hext hsize]
      cases fetch with
      | networkFailure => exact ⟨rfl, Or.inl rfl, Nat.le_refl _⟩
      | response result =>
        by_cases hsu : result.success = true
        · rw [show (match FetchOutcome.response result with
              | .networkFailure =>
                  showError networkErrorMsg
                    { showLoading s with requests := (showLoading s).requests + 1 }
              | .response r =>
                  if r.success then
                    displayResults r file
                      { showLoading s with requests := (showLoading s).requests + 1 }
                  else
                    showError (jsOr r.error unknownErrorMsg)
                      { showLoading s with requests := (showLoading s).requests + 1 }) =
              displayResults result file
                { showLoading s with requests := (showLoading s).requests + 1 } from by
            rw [show (match FetchOutcome.response result with
              | FetchOutcome.networkFailure =>
                  showError networkErrorMsg
                    { showLoading s with requests := (showLoading s).requests + 1 }
              | FetchOutcome.response r =>
                  if r.success then
                    displayResults r file
                      { showLoading s with requests := (showLoading s).requests + 1 }
                  else
                    showError (jsOr r.error unknownErrorMsg)
                      { showLoading s with requests := (showLoading s).requests + 1 }) =
                if result.success then
                  displayResults result file
                    { showLoading s with requests := (showLoading s).requests + 1 }
                else
                  showError (jsOr result.error unknownErrorMsg)
                    { showLoading s with requests := (showLoading s).requests + 1 } from rfl]
            rw [if_pos hsu]]
          obtain ⟨d1, _, _, d4, d5, _⟩ := displayResults_frame result file
            { showLoading s with requests := (showLoading s).requests + 1 }
          exact ⟨d1, d4, d5⟩
        · have hsu' : result.success = false := by simpa using hsu
          rw [show (match FetchOutcome.response result with
              | FetchOutcome.networkFailure =>
                  showError networkErrorMsg
                    { showLoading s with requests := (showLoading s).requests + 1 }
              | FetchOutcome.response r =>
                  if r.success then
                    displayResults r file
                      { showLoading s with requests := (showLoading s).requests + 1 }
                  else
                    showError (jsOr r.error unknownErrorMsg)
                      { showLoading s with requests := (showLoading s).requests + 1 }) =
              showError (jsOr result.error unknownErrorMsg)
                { showLoading s with requests := (showLoading s).requests + 1 } from by
            rw [show (match FetchOutcome.response result with
              | FetchOutcome.networkFailure =>
                  showError networkErrorMsg
                    { showLoading s with requests := (showLoading s).requests + 1 }
              | FetchOutcome.response r =>
                  if r.success then
                    displayResults r file
                      { showLoading s with requests := (showLoading s).requests + 1 }
                  else
                    showError (jsOr r.error unknownErrorMsg)
                      { showLoading s with requests := (showLoading s).requests + 1 }) =
                if result.success then
                  displayResults result file
                    { showLoading s with requests := (showLoading s).requests + 1 }
                else
                  showError (jsOr result.error unknownErrorMsg)
                    { showLoading s with requests := (showLoading s).requests + 1 } from rfl]
            rw [if_neg (by rw [hsu']; simp)]]
          exact ⟨rfl, Or.inl rfl, Nat.le_refl _⟩
  · rw [handleFileUpload_extension_fail file fetch s (by simpa using hext)]
    exact ⟨rfl, Or.inl rfl, Nat.le_refl _⟩

theorem handleFileUpload_network (file : UploadFile) (s : AppState)
    (hext : allowedExtensions.contains (fileExtension file.name) = true)
    (hsize : ¬ file.size > 16 * 1024 * 1024) :
    handleFileUpload file .networkFailure s =
      showError networkErrorMsg
        { showLoading s with requests := (showLoading s).requests + 1 } := by
  rw [handleFileUpload_valid file .networkFailure s hext hsize]

theorem handleFileUpload_response (file : UploadFile) (r : ServerResponse) (s : AppState)
    (hext : allowedExtensions.contains (fileExtension file.name) = true)
    (hsize : ¬ file.size > 16 * 1024 * 1024) :
    handleFileUpload file (.response r) s =
      if r.success then
        displayResults r file
          { showLoading s with requests := (showLoading s).requests + 1 }
      else
        showError (jsOr r.error unknownErrorMsg)
          { showLoading s with requests := (showLoading s).requests + 1 } := by
  rw [handleFileUpload_valid file (.response r) s hext hsize]

/-- C2: after each of the four controller operations (`showLoading`,
`displayResults`, `showError`, `resetApp`) at most one of the loading,
results and error sections is visible, because each hides all sections before
showing its own. -/
theorem C2_sections_exclusive (m : String) (r : ServerResponse) (f : UploadFile)
    (s : AppState) :
    visibleCount (showLoading s) ≤ 1 ∧
    visibleCount (displayResults r f s) ≤ 1 ∧
    visibleCount (showError m s) ≤ 1 ∧
    visibleCount (resetApp s) ≤ 1 := by
  refine ⟨Nat.le_refl 1, ?_, Nat.le_refl 1, Nat.zero_le 1⟩
  obtain ⟨_, _, h3, _, _, h6⟩ := displayResults_frame r f s
  unfold visibleCount
  rw [h3]
  rcases h6 with ⟨hr, he⟩ | ⟨hr, he, _⟩ <;> rw [hr, he] <;> decide

/-- C3: with an allowed extension, the size check passes exactly for sizes up
to and including 16 MiB — the upload request is then issued — while any
strictly larger size short-circuits to the size-too-large error without a
request. -/
theorem C3_size_check (file : UploadFile) (fetch : FetchOutcome) (s : AppState)
    (hext : allowedExtensions.contains (fileExtension file.name) = true) :
    (file.size ≤ 16 * 1024 * 1024 →
      (handleFileUpload file fetch s).requests = s.requests + 1) ∧
    (16 * 1024 * 1024 < file.size →
      handleFileUpload file fetch s = showError sizeErrorMsg s ∧
      (handleFileUpload file fetch s).errorMessage = sizeErrorMsg ∧
      (handleFileUpload file fetch s).requests = s.requests) := by
  constructor
  · intro hle
    have hsize : ¬ file.size > 16 * 1024 * 1024 := Nat.not_lt.mpr hle
    cases fetch with
    | networkFailure =>
      rw [handleFileUpload_network file s hext hsize]
      rfl
    | response result =>
      rw [handleFileUpload_response file result s hext hsize]
      by_cases hsu : result.success = true
      · rw [if_pos hsu]
        obtain ⟨_, d2, _⟩ := displayResults_frame result file
          { showLoading s with requests := (showLoading s).requests + 1 }
        exact d2
      · rw [if_neg hsu]
        rfl
  · intro hlt
    rw [handleFileUpload_size_fail file fetch s hext hlt]
    exact ⟨rfl, rfl, rfl⟩

theorem C3_size_check_witness :
    allowedExtensions.contains (fileExtension "a.mp3") = true ∧
    (16777216 : Nat) ≤ 16 * 1024 * 1024 ∧
    (handleFileUpload ⟨"a.mp3", 16777216⟩ .networkFailure initState).requests =
      initState.requests + 1 ∧
    16 * 1024 * 1024 < (16777217 : Nat) ∧
    handleFileUpload ⟨"a.mp3", 16777217⟩ .networkFailure initState =
      showError sizeErrorMsg initState :=
  ⟨by decide, by decide,
    (C3_size_check ⟨"a.mp3", 16777216⟩ .networkFailure initState (by decide)).1 (by decide),
    by decide,
    ((C3_size_check ⟨"a.mp3", 16777217⟩ .networkFailure initState (by decide)).2
      (by decide)).1⟩

/-- C6: when validation fails — extension not on the allow-list, or size over
16 MiB — the controller goes straight to the error section with the
failure-kind-specific message, the two messages are distinct, no network
request is issued, and no playback handle is created. -/
theorem C6_validation_failure (file : UploadFile) (fetch : FetchOutcome) (s : AppState) :
    (allowedExtensions.contains (fileExtension file.name) = false →
      handleFileUpload file fetch s = showError formatErrorMsg s ∧
      (handleFileUpload file fetch s).errorVisible = true ∧
      (handleFileUpload file fetch s).errorMessage = formatErrorMsg ∧
      (handleFileUpload file fetch s).requests = s.requests ∧
      (handleFileUpload file fetch s).createdHandles = s.createdHandles ∧
      (handleFileUpload file fetch s).nextHandle = s.nextHandle) ∧
    (allowedExtensions.contains (fileExtension file.name) = true →
      16 * 1024 * 1024 < file.size →
      handleFileUpload file fetch s = showError sizeErrorMsg s ∧
      (handleFileUpload file fetch s).errorVisible = true ∧
      (handleFileUpload file fetch s).errorMessage = sizeErrorMsg ∧
      (handleFileUpload file fetch s).requests = s.requests ∧
      (handleFileUpload file fetch s).createdHandles = s.createdHandles ∧
      (handleFileUpload file fetch s).nextHandle = s.nextHandle) ∧
    formatErrorMsg ≠ sizeErrorMsg := by
  refine ⟨fun hext => ?_, fun hext hsize => ?_, by decide⟩
  · rw [handleFileUpload_extension_fail file fetch s hext]
    exact ⟨rfl, rfl, rfl, rfl, rfl, rfl⟩
  · rw [handleFileUpload_size_fail file fetch s hext hsize]
    exact ⟨rfl, rfl, rfl, rfl, rfl, rfl⟩

theorem C6_validation_failure_witness :
    allowedExtensions.contains (fileExtension "track.flac") = false ∧
    handleFileUpload ⟨"track.flac", 4⟩ .networkFailure initState =
      showError formatErrorMsg initState ∧
    (handleFileUpload ⟨"track.flac", 4⟩ .networkFailure initState).requests =
      initState.requests ∧
    (handleFileUpload ⟨"track.flac", 4⟩ .networkFailure initState).createdHandles =
      initState.createdHandles :=
  ⟨by decide,
    ((C6_validation_failure ⟨"track.flac", 4⟩ .networkFailure initState).1 (by decide)).1,
    ((C6_validation_failure ⟨"track.flac", 4⟩ .networkFailure initState).1 (by decide)).2.2.2.1,
    ((C6_validation_failure ⟨"track.flac", 4⟩ .networkFailure initState).1 (by decide)).2.2.2.2.1⟩

/-- C5: refuted as stated.  `result.error || fallback` treats a supplied but
empty error string as falsy: for `success: false, error: ""` the displayed
message is the generic fallback, not the supplied string verbatim. -/
theorem C5_counterexample :
    (handleFileUpload ⟨"a.mp3", 100⟩
        (.response ⟨false, some "", none, none, none, none, none⟩)
        initState).errorMessage = unknownErrorMsg ∧
    unknownErrorMsg ≠ "" := by decide

/-- C5 (amended): on a `success = false` response (after validation passed),
the controller shows the error section; the displayed message is the
server-supplied string verbatim when one was supplied and it is nonempty, and
the generic fallback when the error field is absent — or empty. -/
theorem C5_server_error (file : UploadFile) (r : ServerResponse) (s : AppState)
    (hext : allowedExtensions.contains (fileExtension file.name) = true)
    (hsize : ¬ file.size > 16 * 1024 * 1024)
    (hfail : r.success = false) :
    (handleFileUpload file (.response r) s).errorVisible = true ∧
    (∀ msg, r.error = some msg → msg ≠ "" →
      (handleFileUpload file (.response r) s).errorMessage = msg) ∧
    (r.error = none →
      (handleFileUpload file (.response r) s).errorMessage = unknownErrorMsg) ∧
    (r.error = some "" →
      (handleFileUpload file (.response r) s).errorMessage = unknownErrorMsg) := by
  rw [handleFileUpload_response file r s hext hsize, if_neg (by rw [hfail]; simp)]
  refine ⟨rfl, ?_, ?_, ?_⟩
  · intro msg hm hne
    show jsOr r.error unknownErrorMsg = msg
    rw [hm]
    simp [jsOr, hne]
  · intro hn
    show jsOr r.error unknownErrorMsg = unknownErrorMsg
    rw [hn]
    rfl
  · intro he
    show jsOr r.error unknownErrorMsg = unknownErrorMsg
    rw [he]
    simp [jsOr]

theorem C5_server_error_witness :
    (handleFileUpload ⟨"a.mp3", 100⟩
        (.response ⟨false, some "bad audio", none, none, none, none, none⟩)
        initState).errorMessage = "bad audio" ∧
    (handleFileUpload ⟨"a.mp3", 100⟩
        (.response ⟨false, none, none, none, none, none, none⟩)
        initState).errorMessage = unknownErrorMsg :=
  ⟨(C5_server_error ⟨"a.mp3", 100⟩ ⟨false, some "bad audio", none, none, none, none, none⟩
      initState (by decide) (by decide) rfl).2.1 "bad audio" rfl (by decide),
    (C5_server_error ⟨"a.mp3", 100⟩ ⟨false, none, none, none, none, none, none⟩
      initState (by decide) (by decide) rfl).2.2.1 rfl⟩

/-- C10: a `success = false` response whose error field is present but equal
to the empty string displays the generic fallback message (the empty server
message is treated like an absent one by `result.error || fallback`). -/
theorem C10_empty_error_fallback (file : UploadFile) (r : ServerResponse) (s : AppState)
    (hext : allowedExtensions.contains (fileExtension file.name) = true)
    (hsize : ¬ file.size > 16 * 1024 * 1024)
    (hfail : r.success = false) (herr : r.error = some "") :
    (handleFileUpload file (.response r) s).errorMessage = unknownErrorMsg ∧
    (handleFileUpload file (.response r) s).errorVisible = true := by
  rw [handleFileUpload_response file r s hext hsize, if_neg (by rw [hfail]; simp)]
  refine ⟨?_, rfl⟩
  show jsOr r.error unknownErrorMsg = unknownErrorMsg
  rw [herr]
  simp [jsOr]

theorem C10_empty_error_fallback_witness :
    (handleFileUpload ⟨"b.ogg", 12⟩
        (.response ⟨false, some "", none, none, none, none, none⟩)
        initState).errorMessage = unknownErrorMsg ∧
    (handleFileUpload ⟨"b.ogg", 12⟩
        (.response ⟨false, some "", none, none, none, none, none⟩)
        initState).errorVisible = true :=
  C10_empty_error_fallback ⟨"b.ogg", 12⟩ ⟨false, some "", none, none, none, none, none⟩
    initState (by decide) (by decide) rfl rfl

theorem statsStep_empty (r : ServerResponse) (s : AppState)
    (hn : statsNonempty r.stats = false) :
    statsStep r s = .ok { s with meanPitchText := "N/A", pitchRangeText := "N/A" } := by
  unfold statsStep
  rw [if_neg (by rw [hn]; simp)]

theorem statsStep_full (r : ServerResponse) (s : AppState) (l : List (String × ℚ))
    (m lo hi : ℚ) (hs : r.stats = some l)
    (hm : l.lookup "mean_pitch" = some m)
    (hlo : l.lookup "min_pitch" = some lo)
    (hhi : l.lookup "max_pitch" = some hi) :
    statsStep r s = .ok { s with
      meanPitchText := toFixed 1 m ++ " Hz"
      pitchRangeText := toFixed 1 lo ++ " - " ++ toFixed 1 hi ++ " Hz" } := by
  have hn : statsNonempty r.stats = true := by
    rw [hs]
    unfold statsNonempty
    cases l with
    | nil => simp at hm
    | cons p ps => simp
  unfold statsStep
  rw [if_pos hn, hs, Option.getD_some, hm, hlo, hhi]

theorem afterStatsStep_some (r : ServerResponse) (f : UploadFile) (s : AppState)
    (d : ℚ) (hd : r.duration = some d) :
    afterStatsStep r f s = .ok { addAudioPlayer f
      { s with durationText := toFixed 2 d ++ " 秒"
               plotSrc := "data:image/png;base64," ++ jsText r.plot
               plotVisible := true } with resultsVisible := true } := by
  unfold afterStatsStep
  rw [hd]

theorem displayResultsTry_eq_of_statsStep_ok (r : ServerResponse) (f : UploadFile)
    (s0 s1 : AppState) (h : statsStep r (textStep r s0) = .ok s1) :
    displayResultsTry r f s0 = afterStatsStep r f s1 := by
  unfold displayResultsTry
  rw [h]

theorem displayResultsTry_eq_of_statsStep_error (r : ServerResponse) (f : UploadFile)
    (s0 s1 : AppState) (h : statsStep r (textStep r s0) = .error s1) :
    displayResultsTry r f s0 = .error s1 := by
  unfold displayResultsTry
  rw [h]

/-- C4: on a success response carrying a duration, `displayResults` shows
"N/A" for both pitch fields when `stats` is absent or empty (and still
completes: the results section is shown, no error), and otherwise formats
mean pitch and the min–max range to one decimal with a "Hz" suffix; the
duration is always formatted to two decimals with the localized seconds
suffix. -/
theorem C4_results_formatting (r : ServerResponse) (f : UploadFile) (s : AppState)
    (d : ℚ) (hd : r.duration = some d) :
    (statsNonempty r.stats = false →
      (displayResults r f s).meanPitchText = "N/A" ∧
      (displayResults r f s).pitchRangeText = "N/A" ∧
      (displayResults r f s).durationText = toFixed 2 d ++ " 秒" ∧
      (displayResults r f s).resultsVisible = true ∧
      (displayResults r f s).errorVisible = false) ∧
    (∀ l m lo hi, r.stats = some l →
      l.lookup "mean_pitch" = some m →
      l.lookup "min_pitch" = some lo →
      l.lookup "max_pitch" = some hi →
      (displayResults r f s).meanPitchText = toFixed 1 m ++ " Hz" ∧
      (displayResults r f s).pitchRangeText =
        toFixed 1 lo ++ " - " ++ toFixed 1 hi ++ " Hz" ∧
      (displayResults r f s).durationText = toFixed 2 d ++ " 秒" ∧
      (displayResults r f s).resultsVisible = true ∧
      (displayResults r f s).errorVisible = false) := by
  constructor
  · intro hn
    unfold displayResults
    rw [displayResultsTry_eq_of_statsStep_ok r f s _ (statsStep_empty r (textStep r s) hn),
      afterStatsStep_some r f _ d hd]
    exact ⟨rfl, rfl, rfl, rfl, rfl⟩
  · intro l m lo hi hs hm hlo hhi
    unfold displayResults
    rw [displayResultsTry_eq_of_statsStep_ok r f s _
        (statsStep_full r (textStep r s) l m lo hi hs hm hlo hhi),
      afterStatsStep_some r f _ d hd]
    exact ⟨rfl, rfl, rfl, rfl, rfl⟩

theorem C4_results_formatting_witness :
    (displayResults
        ⟨true, none, some "cat", some "kat", some [("mean_pitch", Rat.divInt 220456 1000),
          ("min_pitch", 150), ("max_pitch", Rat.divInt 30025 100)],
          some (Rat.divInt 5 2), some "img"⟩
        ⟨"a.wav", 7⟩ initState).meanPitchText = "220.5 Hz" ∧
    (displayResults
        ⟨true, none, some "cat", some "kat", some [("mean_pitch", Rat.divInt 220456 1000),
          ("min_pitch", 150), ("max_pitch", Rat.divInt 30025 100)],
          some (Rat.divInt 5 2), some "img"⟩
        ⟨"a.wav", 7⟩ initState).pitchRangeText = "150.0 - 300.3 Hz" ∧
    (displayResults
        ⟨true, none, some "cat", some "kat", some [],
          some (Rat.divInt 5 2), some "img"⟩
        ⟨"a.wav", 7⟩ initState).meanPitchText = "N/A" ∧
    (displayResults
        ⟨true, none, some "cat", some "kat", some [],
          some (Rat.divInt 5 2), some "img"⟩
        ⟨"a.wav", 7⟩ initState).pitchRangeText = "N/A" ∧
    (displayResults
        ⟨true, none, some "cat", some "kat", some [],
          some (Rat.divInt 5 2), some "img"⟩
        ⟨"a.wav", 7⟩ initState).durationText = "2.50 秒" := by
  obtain ⟨hm, hr, _, _, _⟩ :=
    (C4_results_formatting
      ⟨true, none, some "cat", some "kat", some [("mean_pitch", Rat.divInt 220456 1000),
        ("min_pitch", 150), ("max_pitch", Rat.divInt 30025 100)],
        some (Rat.divInt 5 2), some "img"⟩
      ⟨"a.wav", 7⟩ initState (Rat.divInt 5 2) rfl).2
      [("mean_pitch", Rat.divInt 220456 1000), ("min_pitch", 150),
        ("max_pitch", Rat.divInt 30025 100)]
      (Rat.divInt 220456 1000) 150 (Rat.divInt 30025 100) rfl (by decide) (by decide)
      (by decide)
  obtain ⟨hm2, hr2, hd2, _, _⟩ :=
    (C4_results_formatting
      ⟨true, none, some "cat", some "kat", some [], some (Rat.divInt 5 2), some "img"⟩
      ⟨"a.wav", 7⟩ initState (Rat.divInt 5 2) rfl).1 (by decide)
  exact ⟨hm.trans (by decide), hr.trans (by decide), hm2, hr2, hd2.trans (by decide)⟩

/-- C7: `displayResults` never propagates a rendering exception: every run
either completes with the results section shown, or lands in the error
section with the generic display-error message; in particular a success
response missing its duration field takes the error path. -/
theorem C7_render_error_caught (r : ServerResponse) (f : UploadFile) (s : AppState) :
    ((displayResults r f s).resultsVisible = true ∧
        (displayResults r f s).errorVisible = false ∨
      (displayResults r f s).resultsVisible = false ∧
        (displayResults r f s).errorVisible = true ∧
        (displayResults r f s).errorMessage = displayErrorMsg) ∧
    (r.duration = none →
      (displayResults r f s).errorVisible = true ∧
      (displayResults r f s).errorMessage = displayErrorMsg ∧
      (displayResults r f s).resultsVisible = false) := by
  obtain ⟨_, _, _, _, _, h6⟩ := displayResults_frame r f s
  refine ⟨h6, fun hd => ?_⟩
  cases hT : displayResultsTry r f s with
  | ok s' =>
    exfalso
    cases hS : statsStep r (textStep r s) with
    | error s1 =>
      rw [displayResultsTry_eq_of_statsStep_error r f s s1 hS] at hT
      simp at hT
    | ok s1 =>
      rw [displayResultsTry_eq_of_statsStep_ok r f s s1 hS] at hT
      unfold afterStatsStep at hT
      rw [hd] at hT
      simp at hT
  | error s' =>
    unfold displayResults
    rw [hT]
    exact ⟨rfl, rfl, rfl⟩

theorem C7_render_error_caught_witness :
    (displayResults ⟨true, none, some "w", some "p", none, none, some "img"⟩
        ⟨"a.wav", 7⟩ initState).errorVisible = true ∧
    (displayResults ⟨true, none, some "w", some "p", none, none, some "img"⟩
        ⟨"a.wav", 7⟩ initState).errorMessage = displayErrorMsg :=
  ⟨((C7_render_error_caught ⟨true, none, some "w", some "p", none, none, some "img"⟩
      ⟨"a.wav", 7⟩ initState).2 rfl).1,
    ((C7_render_error_caught ⟨true, none, some "w", some "p", none, none, some "img"⟩
      ⟨"a.wav", 7⟩ initState).2 rfl).2.1⟩

/-- C8: `resetApp`, from any state, clears the file input, hides all three
sections and detaches the playback surface — ending in the idle configuration
— and it is idempotent: a second call leaves the state exactly as after the
first. -/
theorem C8_reset_idempotent (s : AppState) :
    (resetApp s).fileInputValue = "" ∧
    (resetApp s).loadingVisible = false ∧
    (resetApp s).resultsVisible = false ∧
    (resetApp s).errorVisible = false ∧
    (resetApp s).audioPlayers = [] ∧
    resetApp (resetApp s) = resetApp s :=
  ⟨rfl, rfl, rfl, rfl, rfl, rfl⟩

theorem step_preserves_leaked (h : Nat) (e : Event) (s : AppState)
    (hl : leakedHandle h s) : leakedHandle h (step e s) := by
  obtain ⟨h1, h2, h3⟩ := hl
  cases e with
  | reset => exact ⟨rfl, h2, h3⟩
  | ended h' =>
    by_cases hm : s.audioPlayers.contains h' = true
    · rw [show step (.ended h') s = { s with revokedHandles := s.revokedHandles ++ [h'] }
        from by show audioEnded h' s = _; unfold audioEnded; rw [if_pos hm]]
      refine ⟨h1, h2, ?_⟩
      have hne : h ≠ h' := by
        intro he
        rw [he] at h1
        rw [h1] at hm
        exact Bool.false_ne_true hm
      have h3' : h ∉ s.revokedHandles := by simpa using h3
      have : h ∉ s.revokedHandles ++ [h'] := by simp [h3', hne]
      simpa using this
    · rw [show step (.ended h') s = s from by
        show audioEnded h' s = s
        unfold audioEnded
        rw [if_neg hm]]
      exact ⟨h1, h2, h3⟩
  | upload file fetch =>
    obtain ⟨f1, f2, f3⟩ := handleFileUpload_frame file fetch s
    refine ⟨?_, Nat.lt_of_lt_of_le h2 f3, by rw [show (step (.upload file fetch) s) = handleFileUpload file fetch s from rfl, f1]; exact h3⟩
    rcases f2 with hA | hA
    · rw [show (step (.upload file fetch) s) = handleFileUpload file fetch s from rfl, hA]
      exact h1
    · rw [show (step (.upload file fetch) s) = handleFileUpload file fetch s from rfl, hA]
      have hne : h ≠ s.nextHandle := Nat.ne_of_lt h2
      simp [hne]

theorem runTrace_preserves_leaked (h : Nat) (events : List Event) (s : AppState)
    (hl : leakedHandle h s) : leakedHandle h (runTrace events s) := by
  induction events generalizing s with
  | nil => exact hl
  | cons e es ih => exact ih (step e s) (step_preserves_leaked h e s hl)

/-- C9: refuted as stated.  `displayResults` (render) does not release the
previously attached surface's handle: after a second render on the same
session, both handles have been created, the first is no longer mounted, and
nothing has ever been revoked — the first handle was not released on
replacement. -/
theorem C9_counterexample :
    (displayResults ⟨true, none, some "w", some "p", none, some (Rat.divInt 5 2), some "i"⟩
        ⟨"b.wav", 4⟩
        (displayResults ⟨true, none, some "w", some "p", none, some (Rat.divInt 5 2), some "i"⟩
          ⟨"a.wav", 4⟩ initState)).createdHandles = [0, 1] ∧
    (displayResults ⟨true, none, some "w", some "p", none, some (Rat.divInt 5 2), some "i"⟩
        ⟨"b.wav", 4⟩
        (displayResults ⟨true, none, some "w", some "p", none, some (Rat.divInt 5 2), some "i"⟩
          ⟨"a.wav", 4⟩ initState)).revokedHandles = [] ∧
    (displayResults ⟨true, none, some "w", some "p", none, some (Rat.divInt 5 2), some "i"⟩
        ⟨"b.wav", 4⟩
        (displayResults ⟨true, none, some "w", some "p", none, some (Rat.divInt 5 2), some "i"⟩
          ⟨"a.wav", 4⟩ initState)).audioPlayers = [1] := by decide

/-- C9 (amended): a handle is revoked only by the playback-ended event of a
still-mounted audio element; replacement (`addAudioPlayer`) and `resetApp`
detach the player without revoking, so an allocated handle that is unmounted
and unrevoked stays unrevoked — and unmounted — for the entire rest of the
session, whatever events occur: it is leaked rather than released. -/
theorem C9_handle_leak (h : Nat) (s : AppState) (events : List Event)
    (hmount : s.audioPlayers.contains h = false)
    (halloc : h < s.nextHandle)
    (hrev : s.revokedHandles.contains h = false) :
    (runTrace events s).revokedHandles.contains h = false ∧
    (runTrace events s).audioPlayers.contains h = false := by
  obtain ⟨p1, _, p3⟩ := runTrace_preserves_leaked h events s ⟨hmount, halloc, hrev⟩
  exact ⟨p3, p1⟩

theorem C9_handle_leak_witness :
    (runTrace [Event.ended 1, Event.reset,
        Event.upload ⟨"c.wav", 4⟩ FetchOutcome.networkFailure]
      (addAudioPlayer ⟨"b.wav", 4⟩
        (addAudioPlayer ⟨"a.wav", 4⟩ initState))).revokedHandles.contains 0 = false ∧
    (runTrace [Event.ended 1, Event.reset,
        Event.upload ⟨"c.wav", 4⟩ FetchOutcome.networkFailure]
      (addAudioPlayer ⟨"b.wav", 4⟩
        (addAudioPlayer ⟨"a.wav", 4⟩ initState))).audioPlayers.contains 0 = false :=
  C9_handle_leak 0
    (addAudioPlayer ⟨"b.wav", 4⟩ (addAudioPlayer ⟨"a.wav", 4⟩ initState))
    [Event.ended 1, Event.reset, Event.upload ⟨"c.wav", 4⟩ FetchOutcome.networkFailure]
    (by decide) (by decide) (by decide)
